import Mathlib

/-!
Verification of the `aer` update command (`src/aer/src/main.rs`).

The core under verification is `run_update` and the batch loop in `main`:
a two-stage download-link resolver (direct URL, or URL plus filter regex
with a drill-down into the first match), a link classifier that fills the
`aarch32` / `aarch64` slots with the first matching link per regex entry
and appends every other match to `others`, and a fail-fast batch runner.

External collaborators (the HTTP fetch in `aer_upd::web`, the `regex`
crate, `Versions::parse` and `parsers::read_file` from `aer_upd`) are not
part of the repository source; they are modelled as explicit function
parameters, except for the version parser, which is modelled from the
spec where a claim depends on its concrete behaviour.
-/

set_option autoImplicit false

namespace Aer

/-- Errors are opaque boxed values (`Box<dyn std::error::Error>` in the
source); only their identity matters here. -/
abbrev Err := String

/-- Modelled from the spec: `Versions` lives in the external `aer_upd`
crate.  The spec describes a `Version` as "an ordered, comparable value
derived from a version-like string (dotted numeric components, at
minimum)"; dotted numeric components suffice for every claim. -/
abbrev Version := List Nat

/-- A hyperlink as produced by the web collaborator: the `Link` struct of
`aer_upd` with its `link` (href) and optional `version` fields, the only
two fields `main.rs` touches. -/
structure Link where
  link : String
  version : Option Version
  deriving Repr, DecidableEq

/-- A compiled regular expression, abstracted to the single capability
`main.rs` uses: `re.captures(s)` either fails (`none`: no match) or
matches and reports the text captured by the named group `version`
(`some g`, with `g = none` when the pattern has no such group or it did
not participate in the match). -/
structure RePattern where
  captures : String → Option (Option String)

/-- The regex-compilation collaborator: `Regex::new`, which either
compiles a pattern string or fails with an error that `run_update`
propagates via `?`. -/
abbrev Compile := String → Except Err RePattern

/-- The version-parsing collaborator: `Versions::parse`, returning
`Result<Versions, _>`, modelled as `Option` since `run_update` only
distinguishes `Ok` from `Err`. -/
abbrev VParse := String → Option Version

/-- Rust's `str::to_lowercase`, used on the regex-entry names: per-char
lowercasing. -/
def to_lowercase (s : String) : String := ⟨s.data.map Char.toLower⟩

/-- Split a character list at every dot (helper for the spec-modelled
version parser). -/
def splitOnDot : List Char → List (List Char)
  | [] => [[]]
  | c :: rest =>
    match splitOnDot rest with
    | [] => [[]]
    | g :: gs => if c = '.' then [] :: g :: gs else (c :: g) :: gs

/-- Read a dotted component as a numeral: non-empty and all digits
(helper for the spec-modelled version parser). -/
def compToNat? (cs : List Char) : Option Nat :=
  if cs.isEmpty then none
  else if cs.all Char.isDigit then
    some (cs.foldl (fun n c => 10 * n + (c.toNat - 48)) 0)
  else none

/-- Parse every dotted component, failing when any fails (helper for the
spec-modelled version parser). -/
def parseGroups : List (List Char) → Option (List Nat)
  | [] => some []
  | g :: gs =>
    match compToNat? g, parseGroups gs with
    | some n, some ns => some (n :: ns)
    | _, _ => none

/-- Modelled from the spec: the concrete `Versions::parse` of the
external `aer_upd` crate, per spec 4.1 (absent on failure) and spec 3
(dotted numeric components): every dot-separated component must be a
non-empty numeral.  `"2.3.1"` parses to `[2, 3, 1]`; `"not-a-version"`
and `""` fail. -/
def Versions.parse (s : String) : Option Version :=
  parseGroups (splitOnDot s.data)

/-- The fetch collaborator: `request.get_html_response(url)?.read(filter)?`
collapsed into one call, returning the page identifier (`parent`) and its
hyperlinks — all of them when `filter` is `none`, only those whose href
matches when `filter` is `some pattern`.  Both steps can fail; the
combined call is `Except`. -/
abbrev Fetch := String → Option String → Except Err (String × List Link)

/-- The type `chocolatey::ChocolateyParseUrl`: either a direct URL or a
URL with a filter regex (the two-stage strategy). -/
inductive ChocolateyParseUrl where
  | Url (url : String)
  | UrlWithRegex (url : String) (regex : String)
  deriving Repr, DecidableEq

/-- The Chocolatey updater configuration: `parse_url` plus the ordered
`regexes()` mapping of classification name to pattern string. -/
structure ChocolateyConfig where
  parse_url : Option ChocolateyParseUrl
  regexes : List (String × String)

/-- The updater section of a package: `has_chocolatey()` is `isSome` of
the `chocolatey()` configuration. -/
structure Updater where
  chocolatey : Option ChocolateyConfig

/-- A parsed package file: `metadata.id` (logging only) and the updater
data. -/
structure PackageData where
  id : String
  updater : Updater

/-- The file-parsing collaborator `parsers::read_file`. -/
abbrev ParseFile := String → Except Err PackageData

/-- Outcome of running one package file: normal return `Ok(())`, an error
propagated via `?`, or an immediate process exit (`std::process::exit`)
with the given code. -/
inductive UpdOutcome (α : Type) where
  | ok (a : α)
  | err (e : Err)
  | exit (code : Nat)
  deriving Repr, DecidableEq

/-- The `parse_url` match of `run_update` (main.rs lines 106–126): a
direct URL is fetched and read unfiltered; a URL with regex is fetched
and read with the filter, and when the first-level result is non-empty
the first link's href is fetched and read unfiltered, the first-level
result being discarded; an absent strategy exits the process with
code 5. -/
def resolveParseUrl (fetch : Fetch) :
    Option ChocolateyParseUrl → UpdOutcome (String × List Link)
  | some (.Url url) =>
    match fetch url none with
    | .error e => .err e
    | .ok r => .ok r
  | some (.UrlWithRegex url regex) =>
    match fetch url (some regex) with
    | .error e => .err e
    | .ok (parent, urls) =>
      match urls with
      | first :: _ =>
        match fetch first.link none with
        | .error e => .err e
        | .ok r => .ok r
      | [] => .ok (parent, urls)
  | none => .exit 5

/-- The body of the `filter_map` closure in `run_update` (lines 135–146):
match the link's href against the compiled pattern; on no match drop the
link; on a match clone it and, when `Versions::parse` of the `version`
capture (or `""` when the group is absent) succeeds, set the clone's
version. -/
def procLink (vparse : VParse) (re : RePattern) (link : Link) : Option Link :=
  match re.captures link.link with
  | none => none
  | some capture =>
    let new_link := link
    match vparse (capture.getD "") with
    | some version => some { new_link with version := some version }
    | none => some new_link

/-- The mutable accumulators of the classification loop. -/
structure ClassState where
  aarch32 : Option Link
  aarch64 : Option Link
  others : List Link
  deriving Repr, DecidableEq

/-- Initial accumulators (lines 128–130). -/
def ClassState.init : ClassState := ⟨none, none, []⟩

/-- One iteration of the classification loop (lines 135–159), after the
pattern compiled: build the matching-link iterator, then either take its
first element into the `aarch32` / `aarch64` slot (when the entry's name
lower-cases to `"arch32"` / `"arch64"`) or push every element onto
`others`. -/
def classifyStep (vparse : VParse) (urls : List Link) (st : ClassState)
    (key : String) (re : RePattern) : ClassState :=
  let items := urls.filterMap (procLink vparse re)
  if to_lowercase key = "arch32" then
    { st with aarch32 := items.head? }
  else if to_lowercase key = "arch64" then
    { st with aarch64 := items.head? }
  else
    { st with others := st.others ++ items }

/-- The classification loop (lines 132–174): fold `classifyStep` over the
regex entries in order, propagating a `Regex::new` failure as an error. -/
def classify (compile : Compile) (vparse : VParse) (urls : List Link) :
    List (String × String) → ClassState → Except Err ClassState
  | [], st => .ok st
  | (key, pat) :: rest, st =>
    match compile pat with
    | .error e => .error e
    | .ok re => classify compile vparse urls rest (classifyStep vparse urls st key re)

/-- The function `run_update` (lines 88–180): parse the package file; when the updater
has Chocolatey data, resolve the parse-URL strategy and classify the
resulting links; the classification result is only logged, so a
successful run returns `Ok(())`. -/
def run_update (parseFile : ParseFile) (fetch : Fetch) (compile : Compile)
    (vparse : VParse) (file : String) : UpdOutcome Unit :=
  match parseFile file with
  | .error e => .err e
  | .ok data =>
    match data.updater.chocolatey with
    | none => .ok ()
    | some choco =>
      match resolveParseUrl fetch choco.parse_url with
      | .err e => .err e
      | .exit c => .exit c
      | .ok (_, urls) =>
        match classify compile vparse urls choco.regexes ClassState.init with
        | .error e => .err e
        | .ok _ => .ok ()

/-- The batch loop of `main` (lines 65–75): process the package files in
order, stopping at the first file whose `run_update` errs; a process exit
inside `run_update` ends the run immediately. -/
def runAll (runOne : String → UpdOutcome Unit) : List String → UpdOutcome Unit
  | [] => .ok ()
  | f :: fs =>
    match runOne f with
    | .ok _ => runAll runOne fs
    | .err e => .err e
    | .exit c => .exit c

/-- The exit-code mapping of `main` (lines 79–85): an error prints and
exits with code 1, a normal result falls through (exit code 0), and an
explicit `std::process::exit(c)` keeps its code. -/
def mainExitCode : UpdOutcome Unit → Nat
  | .ok _ => 0
  | .err _ => 1
  | .exit c => c

/-! ## Helper lemmas -/

/-- The head of a `filterMap` is the image under `f` of the first element
on which `f` succeeds. -/
theorem head?_filterMap {α β : Type} (f : α → Option β) (l : List α) :
    (l.filterMap f).head? = ((l.filter fun a => (f a).isSome).head?).bind f := by
  induction l with
  | nil => rfl
  | cons a l ih =>
    cases h : f a with
    | none => simp [List.filterMap_cons, List.filter_cons, h, ih]
    | some b => simp [List.filterMap_cons, List.filter_cons, h]

/-- A link survives `procLink` exactly when its href matches the
pattern. -/
theorem procLink_isSome (vparse : VParse) (re : RePattern) (l : Link) :
    (procLink vparse re l).isSome = (re.captures l.link).isSome := by
  cases h : re.captures l.link with
  | none => simp [procLink, h]
  | some c => cases hv : vparse (c.getD "") <;> simp [procLink, h, hv]

/-- The spec-modelled version parser rejects the empty string. -/
theorem versions_parse_empty : Versions.parse "" = none := by decide

/-! ## Concrete artifacts used by the witnesses -/

/-- A fetch collaborator with two pages: the listing page `"idx"` whose
filtered read yields two links, and the drill-down page `"b"`. -/
def fetchW : Fetch := fun u f =>
  if u = "idx" ∧ f = some "p" then .ok ("idx", [⟨"b", none⟩, ⟨"c", none⟩])
  else if u = "b" ∧ f = none then .ok ("b", [⟨"d", none⟩, ⟨"e", none⟩])
  else if u = "empty" ∧ f = some "p" then .ok ("empty", [])
  else .error "network"

/-- A pattern matching only the href `"x32.exe"`, capturing `"2.3.1"` in
its `version` group. -/
def reX32 : RePattern := ⟨fun s => if s = "x32.exe" then some (some "2.3.1") else none⟩

/-- A pattern matching every href, with no `version` group. -/
def reAll : RePattern := ⟨fun _ => some none⟩

/-- A pattern matching only the href `"u"`, with no `version` group. -/
def reU : RePattern := ⟨fun s => if s = "u" then some none else none⟩

/-- A package file parser with two known files: one whose updater has
Chocolatey data but no `parse_url`, one with no Chocolatey data. -/
def parseFileW : ParseFile := fun f =>
  if f = "no-url.pkg" then .ok ⟨"no-url", ⟨some ⟨none, [("arch32", "p")]⟩⟩⟩
  else if f = "plain.pkg" then .ok ⟨"plain", ⟨none⟩⟩
  else .error "parse"

/-- A per-file runner failing on the second and third of three files,
with distinct errors. -/
def runOneW : String → UpdOutcome Unit := fun s =>
  if s = "f2" then .err "boom2"
  else if s = "f3" then .err "boom3"
  else .ok ()

/-! ## Claims -/

/-- Claim C1: for a `FilteredWithRegex` (`UrlWithRegex`) strategy whose
first (filtered) fetch yields a non-empty result, the resolver fetches
the page at the href of the first link of that result and returns all of
that second page's hyperlinks unfiltered (the second read passes no
filter pattern), the first-level result being discarded: the outcome is
exactly the second page's link list. -/
theorem filtered_regex_drills_into_first (fetch : Fetch)
    (url pattern parent : String) (first : Link) (rest : List Link)
    (page2 : String) (links2 : List Link)
    (h1 : fetch url (some pattern) = .ok (parent, first :: rest))
    (h2 : fetch first.link none = .ok (page2, links2)) :
    resolveParseUrl fetch (some (.UrlWithRegex url pattern)) = .ok (page2, links2) := by
  simp [resolveParseUrl, h1, h2]

/-- Witness for C1 on the concrete collaborator `fetchW`: the filtered
read of `"idx"` yields links `"b"`, `"c"`; resolution returns the full
link list of page `"b"`, with the first-level links gone. -/
theorem filtered_regex_drills_into_first_witness :
    fetchW "idx" (some "p") = .ok ("idx", [⟨"b", none⟩, ⟨"c", none⟩]) ∧
    fetchW "b" none = .ok ("b", [⟨"d", none⟩, ⟨"e", none⟩]) ∧
    resolveParseUrl fetchW (some (.UrlWithRegex "idx" "p"))
      = .ok ("b", [⟨"d", none⟩, ⟨"e", none⟩]) :=
  ⟨rfl, rfl,
    filtered_regex_drills_into_first fetchW "idx" "p" "idx" ⟨"b", none⟩
      [⟨"c", none⟩] "b" [⟨"d", none⟩, ⟨"e", none⟩] rfl rfl⟩

/-- Claim C5: for a `FilteredWithRegex` (`UrlWithRegex`) strategy whose
first fetch yields zero matching hyperlinks, resolution returns the empty
link list as a success, not an error; the conclusion holds for every
fetch collaborator agreeing on that one call, so no second fetch can be
involved. -/
theorem filtered_regex_empty_is_ok (fetch : Fetch) (url pattern parent : String)
    (h : fetch url (some pattern) = .ok (parent, [])) :
    resolveParseUrl fetch (some (.UrlWithRegex url pattern)) = .ok (parent, []) := by
  simp [resolveParseUrl, h]

/-- Witness for C5 on `fetchW`: the filtered read of `"empty"` yields no
links and resolution returns the empty list successfully. -/
theorem filtered_regex_empty_is_ok_witness :
    fetchW "empty" (some "p") = .ok ("empty", []) ∧
    resolveParseUrl fetchW (some (.UrlWithRegex "empty" "p")) = .ok ("empty", []) :=
  ⟨rfl, filtered_regex_empty_is_ok fetchW "empty" "p" "empty" rfl⟩

/-- Claim C3: a package with Chocolatey updater data but no `parse_url`
strategy makes `run_update` exit the process with code 5, for every
fetch, regex-compilation and version-parsing collaborator (so no link is
produced or classified), while plain errors exit with code 1, distinct
from 5. -/
theorem missing_parse_url_exits_5 (parseFile : ParseFile) (fetch : Fetch)
    (compile : Compile) (vparse : VParse) (file : String)
    (data : PackageData) (cfg : ChocolateyConfig)
    (h1 : parseFile file = .ok data)
    (h2 : data.updater.chocolatey = some cfg)
    (h3 : cfg.parse_url = none) :
    run_update parseFile fetch compile vparse file = .exit 5
    ∧ mainExitCode (.exit 5) = 5
    ∧ (∀ e : Err, mainExitCode (.err e) = 1)
    ∧ (5 : Nat) ≠ 1 := by
  refine ⟨?_, rfl, fun e => rfl, by decide⟩
  simp [run_update, h1, h2, h3, resolveParseUrl]

/-- Witness for C3 on `parseFileW`: the file `"no-url.pkg"` has
Chocolatey data with `parse_url = none`; the run exits with code 5 even
though every collaborator errs. -/
theorem missing_parse_url_exits_5_witness :
    parseFileW "no-url.pkg" = .ok ⟨"no-url", ⟨some ⟨none, [("arch32", "p")]⟩⟩⟩ ∧
    run_update parseFileW (fun _ _ => .error "network") (fun _ => .error "regex")
      Versions.parse "no-url.pkg" = .exit 5 :=
  ⟨rfl,
    (missing_parse_url_exits_5 parseFileW (fun _ _ => .error "network")
      (fun _ => .error "regex") Versions.parse "no-url.pkg"
      ⟨"no-url", ⟨some ⟨none, [("arch32", "p")]⟩⟩⟩ ⟨none, [("arch32", "p")]⟩
      rfl rfl rfl).1⟩

/-- Claim C10: a package file that parses successfully but whose updater
has no Chocolatey configuration makes `run_update` return `Ok(())`, for
every fetch, regex-compilation and version-parsing collaborator — so no
fetch, resolution or classification can have taken place — and the batch
loop then continues with the next file. -/
theorem no_chocolatey_is_ok (parseFile : ParseFile) (fetch : Fetch)
    (compile : Compile) (vparse : VParse) (file : String) (data : PackageData)
    (h1 : parseFile file = .ok data)
    (h2 : data.updater.chocolatey = none) :
    run_update parseFile fetch compile vparse file = .ok ()
    ∧ ∀ runOne rest, runOne file = run_update parseFile fetch compile vparse file →
        runAll runOne (file :: rest) = runAll runOne rest := by
  have hok : run_update parseFile fetch compile vparse file = .ok () := by
    simp [run_update, h1, h2]
  refine ⟨hok, fun runOne rest hr => ?_⟩
  simp [runAll, hr, hok]

/-- Witness for C10 on `parseFileW`: the file `"plain.pkg"` has no
Chocolatey data, and the run succeeds although the fetch and compile
collaborators always err. -/
theorem no_chocolatey_is_ok_witness :
    parseFileW "plain.pkg" = .ok ⟨"plain", ⟨none⟩⟩ ∧
    run_update parseFileW (fun _ _ => .error "network") (fun _ => .error "regex")
      Versions.parse "plain.pkg" = .ok () :=
  ⟨rfl,
    (no_chocolatey_is_ok parseFileW (fun _ _ => .error "network")
      (fun _ => .error "regex") Versions.parse "plain.pkg" ⟨"plain", ⟨none⟩⟩
      rfl rfl).1⟩

/-- Claim C4: the batch loop processes package files in input order and
stops at the first file whose processing errs: the overall result is
exactly that file's error, whatever the runner would do on the remaining
files (`fs2` and the runner's behaviour on it are universally
quantified, so no later file can affect the outcome), and the process
exit code is 1, nonzero. -/
theorem batch_stops_at_first_error (runOne : String → UpdOutcome Unit)
    (fs1 : List String) (f : String) (fs2 : List String) (e : Err)
    (h1 : ∀ g ∈ fs1, runOne g = .ok ())
    (h2 : runOne f = .err e) :
    runAll runOne (fs1 ++ f :: fs2) = .err e
    ∧ mainExitCode (runAll runOne (fs1 ++ f :: fs2)) = 1
    ∧ mainExitCode (runAll runOne (fs1 ++ f :: fs2)) ≠ 0 := by
  have key : ∀ l : List String, (∀ g ∈ l, runOne g = .ok ()) →
      runAll runOne (l ++ f :: fs2) = .err e := by
    intro l
    induction l with
    | nil => intro _; simp [runAll, h2]
    | cons g gs ih =>
      intro hall
      have hg : runOne g = .ok () := hall g (List.mem_cons_self g gs)
      simp only [List.cons_append, runAll, hg]
      exact ih fun x hx => hall x (List.mem_cons_of_mem _ hx)
  have hmain := key fs1 h1
  exact ⟨hmain, by rw [hmain]; rfl, by rw [hmain]; exact Nat.one_ne_zero⟩

/-- Witness for C4 on `runOneW` with three files where the second fails:
the reported error is the second file's error `"boom2"`, not the third
file's `"boom3"`, and the exit code is 1. -/
theorem batch_stops_at_first_error_witness :
    runOneW "f1" = .ok () ∧ runOneW "f2" = .err "boom2" ∧
    runOneW "f3" = .err "boom3" ∧
    runAll runOneW ["f1", "f2", "f3"] = .err "boom2" ∧
    mainExitCode (runAll runOneW ["f1", "f2", "f3"]) = 1 :=
  ⟨rfl, rfl, rfl,
    (batch_stops_at_first_error runOneW ["f1"] "f2" ["f3"] "boom2"
      (by intro g hg; simp at hg; subst hg; rfl) rfl).1,
    (batch_stops_at_first_error runOneW ["f1"] "f2" ["f3"] "boom2"
      (by intro g hg; simp at hg; subst hg; rfl) rfl).2.1⟩

/-- Claim C2: a regex entry whose name lower-cases to `"arch32"`
(respectively `"arch64"`) sets the `aarch32` (respectively `aarch64`)
slot to the processing of the first candidate link, in candidate-list
order, whose href matches the entry's pattern — whatever the slot held
before, so a later identically-named entry overrides an earlier one (the
prior state `st` is universally quantified), and the slot, an `Option`,
holds at most one link. -/
theorem arch_slot_takes_first_match (vparse : VParse) (urls : List Link)
    (st : ClassState) (key : String) (re : RePattern) :
    (to_lowercase key = "arch32" →
      (classifyStep vparse urls st key re).aarch32
        = ((urls.filter fun l => (re.captures l.link).isSome).head?).bind
            (procLink vparse re))
    ∧ (to_lowercase key = "arch64" →
      (classifyStep vparse urls st key re).aarch64
        = ((urls.filter fun l => (re.captures l.link).isSome).head?).bind
            (procLink vparse re)) := by
  have hf : (urls.filter fun a => (procLink vparse re a).isSome)
      = urls.filter fun l => (re.captures l.link).isSome :=
    List.filter_congr fun a _ => procLink_isSome vparse re a
  have hfm := head?_filterMap (procLink vparse re) urls
  rw [hf] at hfm
  constructor
  · intro h
    have hstep : classifyStep vparse urls st key re
        = { st with aarch32 := (urls.filterMap (procLink vparse re)).head? } := by
      simp only [classifyStep]
      rw [if_pos h]
    rw [hstep]
    exact hfm
  · intro h
    have hne : to_lowercase key ≠ "arch32" := fun hc =>
      absurd (h.symm.trans hc) (by decide)
    have hstep : classifyStep vparse urls st key re
        = { st with aarch64 := (urls.filterMap (procLink vparse re)).head? } := by
      simp only [classifyStep]
      rw [if_neg hne, if_pos h]
    rw [hstep]
    exact hfm

/-- Witness for C2: with the slot already holding `"old"`, the entry
named `"ARCH32"` overwrites it with the first of the two links matching
`reX32`, version attached. -/
theorem arch_slot_takes_first_match_witness :
    to_lowercase "ARCH32" = "arch32" ∧
    (classifyStep Versions.parse [⟨"a", none⟩, ⟨"x32.exe", none⟩, ⟨"x32.exe", none⟩]
        ⟨some ⟨"old", none⟩, none, []⟩ "ARCH32" reX32).aarch32
      = (([⟨"a", none⟩, ⟨"x32.exe", none⟩, ⟨"x32.exe", none⟩].filter
          fun l => (reX32.captures l.link).isSome).head?).bind
            (procLink Versions.parse reX32) ∧
    (classifyStep Versions.parse [⟨"a", none⟩, ⟨"x32.exe", none⟩, ⟨"x32.exe", none⟩]
        ⟨some ⟨"old", none⟩, none, []⟩ "ARCH32" reX32).aarch32
      = some ⟨"x32.exe", some [2, 3, 1]⟩ :=
  ⟨by decide,
    (arch_slot_takes_first_match Versions.parse
      [⟨"a", none⟩, ⟨"x32.exe", none⟩, ⟨"x32.exe", none⟩]
      ⟨some ⟨"old", none⟩, none, []⟩ "ARCH32" reX32).1 (by decide),
    by decide⟩

/-- Claim C6: a regex entry whose name lower-cases to neither `"arch32"`
nor `"arch64"` appends every matching candidate link, in candidate-list
order, to `others`, leaving both architecture slots untouched; appending
performs no deduplication, so a link can occur several times in `others`
and also sit in an architecture slot. -/
theorem others_collect_all_matches (vparse : VParse) (urls : List Link)
    (st : ClassState) (key : String) (re : RePattern)
    (h32 : to_lowercase key ≠ "arch32") (h64 : to_lowercase key ≠ "arch64") :
    (classifyStep vparse urls st key re).others
      = st.others ++ urls.filterMap (procLink vparse re)
    ∧ (classifyStep vparse urls st key re).aarch32 = st.aarch32
    ∧ (classifyStep vparse urls st key re).aarch64 = st.aarch64 := by
  have hstep : classifyStep vparse urls st key re
      = { st with others := st.others ++ urls.filterMap (procLink vparse re) } := by
    simp only [classifyStep]
    rw [if_neg h32, if_neg h64]
  rw [hstep]
  exact ⟨rfl, rfl, rfl⟩

/-- Witness for C6: the entry named `"other"` matches everything; the
link `"x32.exe"` already in the `aarch32` slot and the link `"y"`
already in `others` are both appended again, with no deduplication and
the slot untouched. -/
theorem others_collect_all_matches_witness :
    to_lowercase "other" ≠ "arch32" ∧ to_lowercase "other" ≠ "arch64" ∧
    (classifyStep Versions.parse [⟨"x32.exe", none⟩, ⟨"y", none⟩]
        ⟨some ⟨"x32.exe", some [2, 3, 1]⟩, none, [⟨"y", none⟩]⟩ "other" reAll).others
      = [⟨"y", none⟩]
          ++ [⟨"x32.exe", none⟩, ⟨"y", none⟩].filterMap (procLink Versions.parse reAll) ∧
    (classifyStep Versions.parse [⟨"x32.exe", none⟩, ⟨"y", none⟩]
        ⟨some ⟨"x32.exe", some [2, 3, 1]⟩, none, [⟨"y", none⟩]⟩ "other" reAll).others
      = [⟨"y", none⟩, ⟨"x32.exe", none⟩, ⟨"y", none⟩] ∧
    (classifyStep Versions.parse [⟨"x32.exe", none⟩, ⟨"y", none⟩]
        ⟨some ⟨"x32.exe", some [2, 3, 1]⟩, none, [⟨"y", none⟩]⟩ "other" reAll).aarch32
      = some ⟨"x32.exe", some [2, 3, 1]⟩ :=
  ⟨by decide, by decide,
    (others_collect_all_matches Versions.parse [⟨"x32.exe", none⟩, ⟨"y", none⟩]
      ⟨some ⟨"x32.exe", some [2, 3, 1]⟩, none, [⟨"y", none⟩]⟩ "other" reAll
      (by decide) (by decide)).1,
    by decide, by decide⟩

/-- Claim C8: an entry named `"arch32"` (or `"arch64"`, case-insensitively)
that matches no candidate link unconditionally assigns its slot the empty
result `none`, discarding whatever an earlier identically-named entry had
put there (the prior state `st` is universally quantified). -/
theorem arch_slot_reset_when_no_match (vparse : VParse) (urls : List Link)
    (st : ClassState) (key : String) (re : RePattern)
    (hns : ∀ l ∈ urls, re.captures l.link = none) :
    (to_lowercase key = "arch32" →
      (classifyStep vparse urls st key re).aarch32 = none)
    ∧ (to_lowercase key = "arch64" →
      (classifyStep vparse urls st key re).aarch64 = none) := by
  have hempty : urls.filterMap (procLink vparse re) = [] := by
    induction urls with
    | nil => rfl
    | cons a l ih =>
      have ha : procLink vparse re a = none := by
        simp [procLink, hns a (List.mem_cons_self a l)]
      rw [List.filterMap_cons, ha]
      exact ih fun x hx => hns x (List.mem_cons_of_mem _ hx)
  constructor
  · intro h
    have hstep : classifyStep vparse urls st key re
        = { st with aarch32 := (urls.filterMap (procLink vparse re)).head? } := by
      simp only [classifyStep]
      rw [if_pos h]
    rw [hstep]
    show (urls.filterMap (procLink vparse re)).head? = none
    rw [hempty]
    rfl
  · intro h
    have hne : to_lowercase key ≠ "arch32" := fun hc =>
      absurd (h.symm.trans hc) (by decide)
    have hstep : classifyStep vparse urls st key re
        = { st with aarch64 := (urls.filterMap (procLink vparse re)).head? } := by
      simp only [classifyStep]
      rw [if_neg hne, if_pos h]
    rw [hstep]
    show (urls.filterMap (procLink vparse re)).head? = none
    rw [hempty]
    rfl

/-- Witness for C8: the slot holds the earlier match `"x32.exe"`; the
entry named `"Arch32"` matches nothing among the candidates and resets
the slot to `none`. -/
theorem arch_slot_reset_when_no_match_witness :
    (⟨some ⟨"x32.exe", none⟩, none, []⟩ : ClassState).aarch32 = some ⟨"x32.exe", none⟩ ∧
    to_lowercase "Arch32" = "arch32" ∧
    (∀ l ∈ [(⟨"z", none⟩ : Link)], reX32.captures l.link = none) ∧
    (classifyStep Versions.parse [⟨"z", none⟩]
      ⟨some ⟨"x32.exe", none⟩, none, []⟩ "Arch32" reX32).aarch32 = none :=
  ⟨rfl, by decide, by decide,
    (arch_slot_reset_when_no_match Versions.parse [⟨"z", none⟩]
      ⟨some ⟨"x32.exe", none⟩, none, []⟩ "Arch32" reX32 (by decide)).1 (by decide)⟩

/-- Claim C7: for a link picked up during classification (with a fresh,
version-free href as the fetch collaborator produces), the produced
link's version is set only when the pattern's `version` group is present
and its text parses; an absent group leaves the version absent (the
empty string submitted in its place does not parse), a failed parse
leaves the version absent, a successful parse sets it, and in every case
the link is kept — a parse failure never errs or drops the link. -/
theorem version_from_capture_only (re : RePattern) (link : Link)
    (h : link.version = none) :
    ((re.captures link.link).isSome → (procLink Versions.parse re link).isSome)
    ∧ (∀ out, procLink Versions.parse re link = some out →
        ∀ v, out.version = some v →
          ∃ g, re.captures link.link = some (some g) ∧ Versions.parse g = some v)
    ∧ (re.captures link.link = some none →
        procLink Versions.parse re link = some link)
    ∧ (∀ g, re.captures link.link = some (some g) → Versions.parse g = none →
        procLink Versions.parse re link = some link)
    ∧ (∀ g v, re.captures link.link = some (some g) → Versions.parse g = some v →
        procLink Versions.parse re link = some { link with version := some v }) := by
  refine ⟨?_, ?_, ?_, ?_, ?_⟩
  · intro hc
    rw [procLink_isSome]
    exact hc
  · intro out hout v hv
    rcases hc : re.captures link.link with _ | c
    · simp [procLink, hc] at hout
    · rcases c with _ | g
      · simp only [procLink, hc, Option.getD_none, versions_parse_empty,
          Option.some.injEq] at hout
        subst hout
        rw [h] at hv
        exact Option.noConfusion hv
      · rcases hg : Versions.parse g with _ | ver
        · simp only [procLink, hc, Option.getD_some, hg, Option.some.injEq] at hout
          subst hout
          rw [h] at hv
          exact Option.noConfusion hv
        · simp only [procLink, hc, Option.getD_some, hg, Option.some.injEq] at hout
          subst hout
          simp only [Option.some.injEq] at hv
          subst hv
          exact ⟨g, rfl, hg⟩
  · intro hc
    simp [procLink, hc, versions_parse_empty]
  · intro g hc hg
    simp [procLink, hc, hg]
  · intro g v hc hg
    simp [procLink, hc, hg]

/-- Witness for C7: the pattern `reX32` captures `"2.3.1"` on
`"x32.exe"` and the version is attached as `[2, 3, 1]`; the pattern
`reU` matches `"u"` without a `version` group and the link comes through
unchanged, version absent, with no error. -/
theorem version_from_capture_only_witness :
    reX32.captures "x32.exe" = some (some "2.3.1") ∧
    Versions.parse "2.3.1" = some [2, 3, 1] ∧
    procLink Versions.parse reX32 ⟨"x32.exe", none⟩
      = some ⟨"x32.exe", some [2, 3, 1]⟩ ∧
    reU.captures "u" = some none ∧
    procLink Versions.parse reU ⟨"u", none⟩ = some ⟨"u", none⟩ :=
  ⟨rfl, by decide,
    (version_from_capture_only reX32 ⟨"x32.exe", none⟩ rfl).2.2.2.2
      "2.3.1" [2, 3, 1] rfl (by decide),
    rfl,
    (version_from_capture_only reU ⟨"u", none⟩ rfl).2.2.1 rfl⟩

/-- A version-parsing collaborator that accepts exactly the empty
string (used by the C9 witness). -/
def vparseEmptyOk : VParse := fun s => if s = "" then some [0] else none

/-- Claim C9: when a link's href matches a pattern whose `version` group
is absent from the match, the empty string is what reaches the version
parser, so the produced link's version is set exactly when the parser
accepts the empty string (and is then the parse of `""`). -/
theorem absent_group_gets_empty_string (vparse : VParse) (re : RePattern)
    (link : Link) (h1 : link.version = none)
    (h2 : re.captures link.link = some none) :
    ∃ out, procLink vparse re link = some out
      ∧ (out.version.isSome ↔ (vparse "").isSome)
      ∧ (∀ v, vparse "" = some v → out.version = some v) := by
  rcases hv : vparse "" with _ | v
  · refine ⟨link, ?_, ?_, ?_⟩
    · simp [procLink, h2, hv]
    · rw [h1]
    · intro v hv'
      exact Option.noConfusion hv'
  · refine ⟨{ link with version := some v }, ?_, ?_, ?_⟩
    · simp [procLink, h2, hv]
    · simp
    · intro v' hv'
      injection hv' with hvv
      subst hvv
      rfl

/-- Witness for C9: under `vparseEmptyOk`, which accepts the empty
string, the link `"u"` matched by the group-less pattern `reU` comes out
with its version set — to the parse of `""`. -/
theorem absent_group_gets_empty_string_witness :
    (⟨"u", none⟩ : Link).version = none ∧
    reU.captures "u" = some none ∧
    ∃ out, procLink vparseEmptyOk reU ⟨"u", none⟩ = some out
      ∧ (out.version.isSome ↔ (vparseEmptyOk "").isSome)
      ∧ (∀ v, vparseEmptyOk "" = some v → out.version = some v) :=
  ⟨rfl, rfl, absent_group_gets_empty_string vparseEmptyOk reU ⟨"u", none⟩ rfl rfl⟩

end Aer
